import Mathlib

/-!
# Verification of the github-starcleaner state-synchronization core

A shallow embedding of the Rust sources of `github-starcleaner`:
the domain model (`src/models/repository.rs`, `src/models/config.rs`),
the application state and its mutation contract (`src/state/app_state.rs`),
the pure request/response part of the remote client (`src/services/github.rs`)
and the orchestration handlers of the repository-list view
(`src/ui/repository_list.rs`, `src/ui/app_view.rs`, `src/ui/setup_view.rs`).

Remote I/O is made explicit: every fetch takes the server's raw item list as
an argument, every unstar call is an oracle threaded through a state type, and
every persisted-config write takes its `Result` outcome as an argument.
Machine integers (`u32`, `u8`) are `Nat` with explicit `% 2^32` / `% 2^8`
wrapping where the Rust code can overflow or truncate.
-/

/-- Size of the `u32` value space. -/
def u32size : Nat := 4294967296

/-- Wrap a natural number into `u32` range (Rust release-mode wrapping
arithmetic on `u32`). -/
def wrap32 (n : Nat) : Nat := n % u32size

/-! ## Domain model (`src/models/repository.rs`, `src/models/config.rs`) -/

/-- `Repository` from `src/models/repository.rs`.  Timestamps
(`chrono::DateTime<Utc>`) are modelled as abstract `Nat` instants; `u64`/`u32`
counters are `Nat` (no arithmetic is performed on them). -/
structure Repository where
  id : Nat
  name : String
  full_name : String
  owner : String
  description : Option String
  language : Option String
  stargazers_count : Nat
  forks_count : Nat
  open_issues_count : Nat
  license : Option String
  topics : List String
  updated_at : Nat
  pushed_at : Option Nat
  html_url : String
  starred_order : Nat
deriving DecidableEq, Inhabited

/-- The fields of `octocrab::models::Repository` that
`Repository::from_octocrab_with_order` reads.  `owner.login` and
`license.name` are flattened to the one field that is read; the JSON
`language` value is modelled as the optional string `as_str` extracts. -/
structure OctoRepo where
  id : Nat
  name : String
  full_name : Option String
  owner_login : Option String
  description : Option String
  language : Option String
  stargazers_count : Option Nat
  forks_count : Option Nat
  open_issues_count : Option Nat
  license_name : Option String
  topics : Option (List String)
  updated_at : Option Nat
  pushed_at : Option Nat
  html_url : Option String
deriving DecidableEq, Inhabited

/-- `Repository::from_octocrab_with_order` (`src/models/repository.rs`).
`updated_at.unwrap_or_else(Utc::now)` is modelled with the fixed instant `0`
for the current time (no claim inspects timestamps). -/
def Repository.from_octocrab_with_order (repo : OctoRepo) (starred_order : Nat) :
    Repository where
  id := repo.id
  name := repo.name
  full_name := repo.full_name.getD ""
  owner := repo.owner_login.getD ""
  description := repo.description
  language := repo.language
  stargazers_count := repo.stargazers_count.getD 0
  forks_count := repo.forks_count.getD 0
  open_issues_count := repo.open_issues_count.getD 0
  license := repo.license_name
  topics := repo.topics.getD []
  updated_at := repo.updated_at.getD 0
  pushed_at := repo.pushed_at
  html_url := repo.html_url.getD ""
  starred_order := starred_order

/-- `RepositorySelection` (`src/models/repository.rs`): a `HashSet<u64>` of
selected repository ids, modelled as a `Finset ℕ`. -/
structure RepositorySelection where
  selected_ids : Finset ℕ
deriving DecidableEq

instance : Inhabited RepositorySelection := ⟨⟨∅⟩⟩

/-- `RepositorySelection::is_selected`. -/
def RepositorySelection.is_selected (sel : RepositorySelection) (id : Nat) : Bool :=
  id ∈ sel.selected_ids

/-- `RepositorySelection::toggle`. -/
def RepositorySelection.toggle (sel : RepositorySelection) (id : Nat) :
    RepositorySelection :=
  if id ∈ sel.selected_ids then ⟨sel.selected_ids.erase id⟩
  else ⟨insert id sel.selected_ids⟩

/-- `RepositorySelection::select_all`. -/
def RepositorySelection.select_all (_sel : RepositorySelection)
    (repos : List Repository) : RepositorySelection :=
  ⟨(repos.map (fun r => r.id)).toFinset⟩

/-- `RepositorySelection::clear`. -/
def RepositorySelection.clear (_sel : RepositorySelection) : RepositorySelection :=
  ⟨∅⟩

/-- `RepositorySelection::count`. -/
def RepositorySelection.count (sel : RepositorySelection) : Nat :=
  sel.selected_ids.card

/-- `RepositorySelection::remove_ids`: the `for id in ids` loop erasing each
id from the hash set. -/
def RepositorySelection.remove_ids (sel : RepositorySelection) (ids : List Nat) :
    RepositorySelection :=
  ⟨ids.foldl (fun acc id => acc.erase id) sel.selected_ids⟩

/-- `GitHubConfig` (`src/models/config.rs`). -/
structure GitHubConfig where
  personal_access_token : Option String
deriving DecidableEq, Inhabited

/-- `AppConfig` (`src/models/config.rs`). -/
structure AppConfig where
  github : GitHubConfig
deriving DecidableEq, Inhabited

/-- `AppConfig::has_token`: a token is present and non-empty. -/
def AppConfig.has_token (c : AppConfig) : Bool :=
  match c.github.personal_access_token with
  | some t => !(t.isEmpty)
  | none => false

/-! ## Errors (`src/services/github.rs` and the services module) -/

/-- The `anyhow::Error` values the state layer handles: either the
`TokenExpiredError` wrapper defined in `src/services/github.rs`, or any other
error carried by its display message. -/
inductive ApiError where
  | tokenExpired
  | other (msg : String)
deriving DecidableEq

/-- Modelled from the spec: `is_token_expired_error` lives in the services
module, whose file is not present under `src/` (only its callers are).  Per
the spec's error taxonomy, it recognizes exactly the authentication-expiry
class of errors — the `TokenExpiredError` wrapper raised on HTTP 401. -/
def is_token_expired_error (e : ApiError) : Bool :=
  match e with
  | .tokenExpired => true
  | .other _ => false

/-- `Display` for the errors: `TokenExpiredError` prints
"Token expired or invalid" (`src/services/github.rs`); other errors print
their message. -/
def ApiError.display (e : ApiError) : String :=
  match e with
  | .tokenExpired => "Token expired or invalid"
  | .other msg => msg

/-- `result.as_ref().err().map(is_token_expired_error).unwrap_or(false)`
(`src/ui/repository_list.rs`, batch token-expiry scan). -/
def resultTokenExpired (r : Except ApiError Unit) : Bool :=
  match r with
  | .error e => is_token_expired_error e
  | .ok _ => false

/-- `Result::is_ok` on a per-repository unstar result. -/
def exceptIsOk (r : Except ApiError Unit) : Bool :=
  match r with
  | .ok _ => true
  | .error _ => false

/-! ## Sort configuration and screens (`src/state/app_state.rs`) -/

/-- `AppScreen`. -/
inductive AppScreen where
  | Setup
  | Loading
  | RepositoryList
deriving DecidableEq, Inhabited

/-- `PendingAction`. -/
inductive PendingAction where
  | UnstarSingle (id : Nat) (owner name full_name : String)
  | UnstarSelected (count : Nat)
  | Logout
deriving DecidableEq

/-- `SortField` (API-supported options only); `#[default]` is `Pushed`. -/
inductive SortField where
  | Starred
  | Pushed
deriving DecidableEq, Inhabited

/-- `SortField::api_value`. -/
def SortField.api_value (f : SortField) : String :=
  match f with
  | .Starred => "created"
  | .Pushed => "updated"

/-- `SortDirection`; `#[default]` is `Asc`. -/
inductive SortDirection where
  | Asc
  | Desc
deriving DecidableEq, Inhabited

/-- `SortDirection::toggle`. -/
def SortDirection.toggle (d : SortDirection) : SortDirection :=
  match d with
  | .Asc => .Desc
  | .Desc => .Asc

/-- `SortDirection::api_value`. -/
def SortDirection.api_value (d : SortDirection) : String :=
  match d with
  | .Asc => "asc"
  | .Desc => "desc"

instance : Inhabited SortField := ⟨.Pushed⟩

example : (default : SortField) = .Pushed := rfl

/-! ## Application state (`src/state/app_state.rs`) -/

/-- `AppState`.  The `github_service : Option<GitHubService>` handle carries
no observable state beyond its presence, so it is `Option Unit`;
`current_page : u32` is a `Nat` (its only arithmetic is `+ 1`, reached once
per successful full-page fetch, so `u32` wrap-around is unreachable in any
run the remote API can produce and is not modelled). -/
structure AppState where
  screen : AppScreen
  config : AppConfig
  github_service : Option Unit
  repositories : List Repository
  selection : RepositorySelection
  loading : Bool
  loading_more : Bool
  error : Option String
  username : Option String
  current_page : Nat
  has_more : Bool
  pending_action : Option PendingAction
  sort_field : SortField
  sort_direction : SortDirection
deriving DecidableEq

/-- `AppState::default()` (all fields `Default`). -/
def AppState.default_state : AppState where
  screen := .Setup
  config := ⟨⟨none⟩⟩
  github_service := none
  repositories := []
  selection := ⟨∅⟩
  loading := false
  loading_more := false
  error := none
  username := none
  current_page := 0
  has_more := false
  pending_action := none
  sort_field := .Pushed
  sort_direction := .Asc

/-- `AppState::from_config`. -/
def AppState.from_config (config : AppConfig) : AppState :=
  let screen := if config.has_token then AppScreen.Loading else AppScreen.Setup
  { AppState.default_state with
      screen := screen
      config := config
      current_page := 1
      has_more := true }

/-- `state.repositories.iter().filter(|r| selection.is_selected(r.id))`
— the selected repositories in list order, shared by
`get_selected_repos`, `get_selected_ids` and `unstar_selected`'s snapshot. -/
def selectedRepos (s : AppState) : List Repository :=
  s.repositories.filter (fun r => s.selection.is_selected r.id)

/-- `AppState::get_selected_repos`. -/
def AppState.get_selected_repos (s : AppState) : List (String × String) :=
  (selectedRepos s).map (fun r => (r.owner, r.name))

/-- `AppState::get_selected_ids`. -/
def AppState.get_selected_ids (s : AppState) : List Nat :=
  (selectedRepos s).map (fun r => r.id)

/-- `AppState::remove_repos`: `retain(|r| !ids.contains(&r.id))` on the list
and `remove_ids` on the selection, in one mutation. -/
def AppState.remove_repos (s : AppState) (ids : List Nat) : AppState :=
  { s with
      repositories := s.repositories.filter (fun r => !(ids.contains r.id))
      selection := s.selection.remove_ids ids }

/-- `AppState::logout`.  `ConfigService::clear_token()` is real file I/O; its
outcome is the explicit argument `clearRes`.  The `?` operator makes the
function return early on failure: the fields mutated before it are cleared
either way, the in-memory `personal_access_token` reset happens only after
the store-clear succeeded.  The returned `Except` is the function's
`anyhow::Result<()>`. -/
def AppState.logout (s : AppState) (clearRes : Except String Unit) :
    AppState × Except String Unit :=
  let s1 := { s with
      github_service := none
      username := none
      repositories := []
      selection := s.selection.clear
      screen := AppScreen.Setup }
  match clearRes with
  | .error e => (s1, .error e)
  | .ok _ =>
      ({ s1 with
          config := { s1.config with
              github := { s1.config.github with personal_access_token := none } } },
        .ok ())

/-- The fixed user-facing message of the token-expiry recovery path. -/
def tokenExpiredMsg : String := "Token expired. Please login again."

/-- `AppState::handle_api_error`.  The second component counts how many times
`self.logout()` ran (the source has a single call site, in the expiry
branch, whose `Result` is discarded with `let _ =`); `clearRes` is the
outcome of the store clear inside that `logout`. -/
def AppState.handle_api_error (s : AppState) (clearRes : Except String Unit)
    (err : ApiError) (context : String) : AppState × Nat :=
  if is_token_expired_error err then
    ({ (s.logout clearRes).1 with error := some tokenExpiredMsg }, 1)
  else
    ({ s with error := some (context ++ ": " ++ err.display) }, 0)

example :
    ((AppState.from_config ⟨⟨some "t"⟩⟩).handle_api_error (.ok ())
        (.other "boom") "Failed to unstar").1.error =
      some "Failed to unstar: boom" := by
  decide

/-! ## Remote client (`src/services/github.rs`) -/

/-- The request parameters `fetch_starred_repos_page` hands to the remote
API.  The builder method `.page(page as u8)` truncates the `u32` page number
to `u8`, so the page actually requested is `page % 256`. -/
structure FetchRequest where
  sort : String
  direction : String
  per_page : Nat
  page : Nat
deriving DecidableEq

/-- The per-item stamping loop of `fetch_starred_repos_page`:
`items.into_iter().enumerate().map(|(i, repo)| from_octocrab_with_order(repo, base_order + i))`
with the `u32` addition `base_order + (i as u32)` wrapping. -/
def stampRepos (base : Nat) : Nat → List OctoRepo → List Repository
  | _, [] => []
  | i, r :: rest =>
      Repository.from_octocrab_with_order r (wrap32 (base + i)) ::
        stampRepos base (i + 1) rest

/-- What one call of `GitHubService::fetch_starred_repos_page` does, as a
function of the raw item list the server returns for the request.
`has_more` is `items.len() == per_page as usize`; `base_order` is the `u32`
computation `((page as u32) - 1) * (per_page as u32)` (wrapping subtraction
and multiplication: for `page ≥ 1` the subtraction is exact). -/
def fetch_starred_repos_page (page per_page : Nat) (sort direction : String)
    (items : List OctoRepo) : FetchRequest × List Repository × Bool :=
  let request : FetchRequest :=
    { sort := sort, direction := direction, per_page := per_page,
      page := page % 256 }
  let base_order := wrap32 (wrap32 (page + (u32size - 1)) * per_page)
  (request, stampRepos base_order 0 items, items.length == per_page)

/-- The HTTP outcome of one `DELETE /user/starred/{owner}/{repo}`: either a
status code from a completed response, or a transport-level failure. -/
inductive UnstarHttp where
  | status (code : Nat)
  | transport (msg : String)
deriving DecidableEq

/-- The `match result` at the end of `GitHubService::unstar_repo`:
204/200 are success, 401 becomes the `TokenExpiredError` wrapper, any other
status or a transport error becomes a formatted message error. -/
def unstar_repo_result (owner repo : String) (response : UnstarHttp) :
    Except ApiError Unit :=
  match response with
  | .status code =>
      if code == 204 || code == 200 then .ok ()
      else if code == 401 then .error .tokenExpired
      else .error (.other ("Failed to unstar " ++ owner ++ "/" ++ repo ++
        ": HTTP " ++ toString code))
  | .transport msg =>
      .error (.other ("Failed to unstar " ++ owner ++ "/" ++ repo ++ ": " ++ msg))

/-- `GitHubService::unstar_repos`: the `for (owner, repo) in repos` loop that
awaits `unstar_repo` for each pair in turn and pushes
`(owner.clone(), repo.clone(), result)`.  The remote side is an oracle
`call` threaded through a state `σ`: the state fed to each call is the state
the previous call returned, which is what "the call for pair k+1 starts only
after the call for pair k has returned" means in a pure embedding. -/
def unstar_repos {σ : Type} (call : σ → String → String → σ × Except ApiError Unit) :
    σ → List (String × String) → σ × List (String × String × Except ApiError Unit)
  | st, [] => (st, [])
  | st, (owner, repo) :: rest =>
      let c := call st owner repo
      let r := unstar_repos call c.1 rest
      (r.1, (owner, repo, c.2) :: r.2)

/-- Instrument an oracle so that it also records, in order, every
(owner, name) pair a call was issued for. -/
def traced_call {σ : Type}
    (call : σ → String → String → σ × Except ApiError Unit) :
    σ × List (String × String) → String → String →
      (σ × List (String × String)) × Except ApiError Unit :=
  fun st owner repo =>
    let c := call st.1 owner repo
    ((c.1, st.2 ++ [(owner, repo)]), c.2)

/-- The oracle state after issuing the calls for a prefix of the pairs. -/
def call_state {σ : Type}
    (call : σ → String → String → σ × Except ApiError Unit) :
    σ → List (String × String) → σ
  | st, [] => st
  | st, (owner, repo) :: rest => call_state call (call st owner repo).1 rest

/-! ## Orchestration handlers (`src/ui/repository_list.rs`,
`src/ui/app_view.rs`, `src/ui/setup_view.rs`) -/

/-- The synchronous head of `RepositoryListView::reload_repos`: no-op when a
load is in flight, otherwise set `loading`, clear list and selection, reset
the pagination cursor. -/
def reload_start (s : AppState) : AppState :=
  if s.loading || s.loading_more then s
  else
    { s with
        loading := true
        repositories := []
        selection := s.selection.clear
        current_page := 1
        has_more := true }

/-- The write-back of `reload_repos`' spawned task: clear `loading`, then on
success replace the list and reset the cursor, on failure route through
`handle_api_error` with context "Failed to reload" (`clearRes` feeds the
store clear inside a possible forced logout). -/
def reload_finish (s : AppState)
    (result : Except ApiError (List Repository × Bool))
    (clearRes : Except String Unit) : AppState :=
  let s1 := { s with loading := false }
  match result with
  | .ok (repos, hm) =>
      { s1 with repositories := repos, current_page := 1, has_more := hm }
  | .error e => (s1.handle_api_error clearRes e "Failed to reload").1

/-- The synchronous head of `RepositoryListView::load_more`:
`can_load = !loading_more && has_more`; no-op unless it holds. -/
def load_more_start (s : AppState) : AppState :=
  if !s.loading_more && s.has_more then { s with loading_more := true } else s

/-- The write-back of `load_more`'s spawned task: clear `loading_more`, then
on success append the fetched page (never replace), advance the cursor to
the fetched page number, update `has_more`; on failure route through
`handle_api_error` with context "Failed to load more". -/
def load_more_finish (s : AppState) (next_page : Nat)
    (result : Except ApiError (List Repository × Bool))
    (clearRes : Except String Unit) : AppState :=
  let s1 := { s with loading_more := false }
  match result with
  | .ok (repos, hm) =>
      { s1 with
          repositories := s1.repositories ++ repos
          current_page := next_page
          has_more := hm }
  | .error e => (s1.handle_api_error clearRes e "Failed to load more").1

/-- `RepositoryListView::toggle_select_all`. -/
def toggle_select_all (s : AppState) : AppState :=
  if s.selection.count = s.repositories.length then
    { s with selection := s.selection.clear }
  else
    { s with selection := s.selection.select_all s.repositories }

/-- The `update_global` closure of a sort-field button click
(`src/ui/repository_list.rs` lines 248–258): clicking the active field
toggles the direction in place, clicking another field selects it and
resets the direction to ascending. -/
def sort_click_update (s : AppState) (field : SortField) : AppState :=
  if s.sort_field = field then
    { s with sort_direction := s.sort_direction.toggle }
  else
    { s with sort_field := field, sort_direction := SortDirection.Asc }

/-- The `update_global` closure of the direction-indicator click: toggle the
direction, keep the field. -/
def dir_click_update (s : AppState) : AppState :=
  { s with sort_direction := s.sort_direction.toggle }

/-- The write-back of `RepositoryListView::unstar_selected`'s spawned task,
applied to the batch results and the snapshotted `ids_to_remove`.  If any
result is classified as token expiry, one `logout` runs for the whole batch
(the second component counts `logout` calls) and the fixed expiry message is
set; otherwise exactly the ids zipped against successful results are
removed. -/
def unstar_selected_finish (s : AppState)
    (results : List (String × String × Except ApiError Unit))
    (ids_to_remove : List Nat) (clearRes : Except String Unit) :
    AppState × Nat :=
  if results.any (fun t => resultTokenExpired t.2.2) then
    ({ (s.logout clearRes).1 with error := some tokenExpiredMsg }, 1)
  else
    let success_ids :=
      ((results.zip ids_to_remove).filter (fun p => exceptIsOk p.1.2.2)).map
        (fun p => p.2)
    (s.remove_repos success_ids, 0)

/-- The write-back of `AppView::trigger_load_repos` (the initial page-1 load
entered from the `Loading` screen): on success install the service handle,
username, list and cursor and move to `RepositoryList`; on failure set the
error and fall back to `Setup`. -/
def trigger_load_finish (s : AppState)
    (result : Except String (String × List Repository × Bool)) : AppState :=
  match result with
  | .ok (username, repos, hm) =>
      { s with
          github_service := some ()
          username := some username
          repositories := repos
          loading := false
          current_page := 1
          has_more := hm
          screen := AppScreen.RepositoryList }
  | .error e =>
      { s with
          error := some ("Failed to load: " ++ e)
          screen := AppScreen.Setup
          loading := false }

example :
    (load_more_start (AppState.from_config ⟨⟨some "t"⟩⟩)).loading_more = true := by
  decide

example :
    (fetch_starred_repos_page 1 2 "created" "desc"
        [default, default]).2.2 = true := by
  decide

/-! ## The event-level transition system

One constructor per Application-State mutation site in the sources.  Spawned
tasks are modelled per the serialized scheduling model of the design: every
write-back is one atomic step, at most one page load is in flight at a time
(tracked by the `loading` / `loading_more` flags and the screen, which is
how the code itself distinguishes them), and a constructor's guard states
when the source can run that mutation:

* the initial load (`AppView`) starts from the `Loading` screen and its
  write-back happens while `screen = Loading` and `loading = true`;
* `reload_repos` / `load_more` are clicks inside `RepositoryListView`;
  their list area (rows, load-more button) is rendered only when
  `loading = false`, while toolbar and header are always rendered there;
* a load write-back runs while its flag is still set (only the in-flight
  task itself resets the flag);
* the fire-and-forget unstar write-backs carry no flag in the source, so
  their steps are unguarded, with the snapshotted ids and the batch results
  universally quantified (every possible snapshot/server outcome is
  covered including the stale ones the source does not prevent). -/
inductive Step : AppState → AppState → Prop
  | initLoadStart {s : AppState} :
      s.screen = .Loading → s.loading = false →
      Step s { s with loading := true }
  | initLoadNoToken {s : AppState} :
      s.screen = .Loading → s.loading = true →
      s.config.github.personal_access_token = none →
      Step s { s with screen := .Setup, error := some "No token found" }
  | initLoadFinishOk {s : AppState} (username : String) (raw : List OctoRepo) :
      s.screen = .Loading → s.loading = true →
      Step s (trigger_load_finish s (.ok (username,
        (fetch_starred_repos_page 1 100 s.sort_field.api_value
          s.sort_direction.api_value raw).2.1,
        (fetch_starred_repos_page 1 100 s.sort_field.api_value
          s.sort_direction.api_value raw).2.2)))
  | initLoadFail {s : AppState} (msg : String) :
      s.screen = .Loading → s.loading = true →
      Step s (trigger_load_finish s (.error msg))
  | submitTokenOk {s : AppState} (token username : String) :
      s.screen = .Setup →
      Step s { s with
        config := ⟨⟨some token⟩⟩
        github_service := some ()
        username := some username
        screen := .Loading }
  | rowToggle {s : AppState} (id : Nat) :
      s.screen = .RepositoryList → s.loading = false →
      (∃ r ∈ s.repositories, r.id = id) →
      Step s { s with selection := s.selection.toggle id }
  | selectAllToggle {s : AppState} :
      s.screen = .RepositoryList →
      Step s (toggle_select_all s)
  | sortFieldClick {s : AppState} (field : SortField) :
      s.screen = .RepositoryList →
      Step s (reload_start (sort_click_update s field))
  | sortDirClick {s : AppState} :
      s.screen = .RepositoryList →
      Step s (reload_start (dir_click_update s))
  | reloadFinishOk {s : AppState} (raw : List OctoRepo) :
      s.loading = true →
      Step s (reload_finish s (.ok
        ((fetch_starred_repos_page 1 100 s.sort_field.api_value
            s.sort_direction.api_value raw).2.1,
         (fetch_starred_repos_page 1 100 s.sort_field.api_value
            s.sort_direction.api_value raw).2.2)) (.ok ()))
  | reloadFinishFail {s : AppState} (e : ApiError) (clearRes : Except String Unit) :
      s.loading = true →
      Step s (reload_finish s (.error e) clearRes)
  | loadMoreStart {s : AppState} :
      s.screen = .RepositoryList → s.loading = false →
      Step s (load_more_start s)
  | loadMoreFinishOk {s : AppState} (raw : List OctoRepo) :
      s.loading_more = true →
      Step s (load_more_finish s (s.current_page + 1) (.ok
        ((fetch_starred_repos_page (s.current_page + 1) 100 s.sort_field.api_value
            s.sort_direction.api_value raw).2.1,
         (fetch_starred_repos_page (s.current_page + 1) 100 s.sort_field.api_value
            s.sort_direction.api_value raw).2.2)) (.ok ()))
  | loadMoreFinishFail {s : AppState} (e : ApiError) (clearRes : Except String Unit) :
      s.loading_more = true →
      Step s (load_more_finish s (s.current_page + 1) (.error e) clearRes)
  | requestUnstarSingle {s : AppState} (r : Repository) :
      s.screen = .RepositoryList → s.loading = false → r ∈ s.repositories →
      Step s { s with
        pending_action := some (.UnstarSingle r.id r.owner r.name r.full_name) }
  | requestUnstarSelected {s : AppState} :
      s.screen = .RepositoryList → 0 < s.selection.count →
      Step s { s with pending_action := some (.UnstarSelected s.selection.count) }
  | requestLogout {s : AppState} :
      s.screen = .RepositoryList →
      Step s { s with pending_action := some .Logout }
  | cancelPending {s : AppState} :
      s.pending_action.isSome = true →
      Step s { s with pending_action := none }
  | confirmUnstar {s : AppState} (a : PendingAction) :
      s.pending_action = some a → a ≠ .Logout →
      Step s { s with pending_action := none }
  | confirmLogout {s : AppState} (clearRes : Except String Unit) :
      s.pending_action = some .Logout →
      Step s (AppState.logout { s with pending_action := none } clearRes).1
  | unstarSingleFinishOk {s : AppState} (id : Nat) :
      Step s (s.remove_repos [id])
  | unstarSingleFinishFail {s : AppState} (e : ApiError)
      (clearRes : Except String Unit) :
      Step s (s.handle_api_error clearRes e "Failed to unstar").1
  | unstarSelectedFinish {s : AppState}
      (results : List (String × String × Except ApiError Unit))
      (ids : List Nat) (clearRes : Except String Unit) :
      Step s (unstar_selected_finish s results ids clearRes).1

/-- States reachable from the process-start state built by
`AppState::from_config` (`src/main.rs`). -/
def Reachable (c : AppConfig) (s : AppState) : Prop :=
  Relation.ReflTransGen Step (AppState.from_config c) s

/-- The ids of the loaded repositories. -/
def repoIds (s : AppState) : Finset ℕ :=
  (s.repositories.map (fun r => r.id)).toFinset

/-- The selection-subset property of spec §8. -/
def selectionSubset (s : AppState) : Prop :=
  s.selection.selected_ids ⊆ repoIds s

/-- The inductive strengthening of the selection-subset invariant: outside
the repository-list screen the selection is empty; while a reload is in
flight the (just-cleared) list is empty and no load-more is in flight. -/
def SelInv (s : AppState) : Prop :=
  selectionSubset s
  ∧ (s.screen ≠ .RepositoryList → s.selection.selected_ids = ∅)
  ∧ (s.loading = true → s.screen = .RepositoryList → s.repositories = [])
  ∧ (s.loading = true → s.screen = .RepositoryList → s.loading_more = false)

/-! ## Basic lemmas about the selection and list operations -/

theorem mem_foldl_erase (a : ℕ) (ids : List Nat) :
    ∀ t : Finset ℕ,
      (a ∈ ids.foldl (fun acc id => acc.erase id) t) ↔ a ∈ t ∧ a ∉ ids := by
  induction ids with
  | nil => simp
  | cons i is ih =>
      intro t
      rw [List.foldl_cons, ih]
      simp only [Finset.mem_erase, List.mem_cons]
      tauto

theorem mem_remove_ids {sel : RepositorySelection} {ids : List Nat} {a : ℕ} :
    a ∈ (sel.remove_ids ids).selected_ids ↔ a ∈ sel.selected_ids ∧ a ∉ ids := by
  simp [RepositorySelection.remove_ids, mem_foldl_erase]

theorem mem_remove_repos {s : AppState} {ids : List Nat} {r : Repository} :
    r ∈ (s.remove_repos ids).repositories ↔ r ∈ s.repositories ∧ r.id ∉ ids := by
  simp [AppState.remove_repos, List.mem_filter]

theorem mem_repoIds {s : AppState} {a : ℕ} :
    a ∈ repoIds s ↔ ∃ r ∈ s.repositories, r.id = a := by
  simp [repoIds]

theorem mem_toggle {sel : RepositorySelection} {id a : ℕ}
    (h : a ∈ (sel.toggle id).selected_ids) :
    a ∈ sel.selected_ids ∨ a = id := by
  unfold RepositorySelection.toggle at h
  split at h
  · exact Or.inl (Finset.mem_of_mem_erase h)
  · rcases Finset.mem_insert.mp h with h | h
    · exact Or.inr h
    · exact Or.inl h

/-! ## Preservation of the selection-subset invariant -/

theorem selInv_remove_repos {s : AppState} (h : SelInv s) (ids : List Nat) :
    SelInv (s.remove_repos ids) := by
  obtain ⟨hA, hB, hC, hD⟩ := h
  refine ⟨?_, ?_, ?_, hD⟩
  · intro a ha
    have ha' : a ∈ s.selection.selected_ids ∧ a ∉ ids := mem_remove_ids.mp ha
    have hr : a ∈ repoIds s := hA ha'.1
    obtain ⟨r, hrmem, hrid⟩ := mem_repoIds.mp hr
    exact mem_repoIds.mpr ⟨r, mem_remove_repos.mpr ⟨hrmem, hrid ▸ ha'.2⟩, hrid⟩
  · intro hne
    have hsel := hB hne
    refine Finset.eq_empty_iff_forall_not_mem.mpr (fun a ha => ?_)
    have ha' : a ∈ s.selection.selected_ids ∧ a ∉ ids := mem_remove_ids.mp ha
    rw [hsel] at ha'
    exact absurd ha'.1 (Finset.not_mem_empty a)
  · intro hl hscr
    show s.repositories.filter _ = []
    rw [hC hl hscr]
    rfl

theorem selInv_logout (s : AppState) (clearRes : Except String Unit) :
    SelInv (s.logout clearRes).1 := by
  cases clearRes <;>
    exact ⟨fun a ha => absurd ha (Finset.not_mem_empty a),
      fun _ => rfl, fun _ _ => rfl, fun _ hscr => nomatch hscr⟩

theorem selInv_handle_api_error {s : AppState} (h : SelInv s)
    (clearRes : Except String Unit) (e : ApiError) (ctx : String) :
    SelInv (s.handle_api_error clearRes e ctx).1 := by
  unfold AppState.handle_api_error
  split
  · exact selInv_logout s clearRes
  · exact h

theorem selInv_reload_start {s : AppState} (h : SelInv s) :
    SelInv (reload_start s) := by
  obtain ⟨hA, hB, hC, hD⟩ := h
  unfold reload_start
  split
  · exact ⟨hA, hB, hC, hD⟩
  · rename_i hcond
    have hflags : s.loading = false ∧ s.loading_more = false := by
      simpa using hcond
    exact ⟨fun a ha => absurd ha (Finset.not_mem_empty a),
      fun _ => rfl, fun _ _ => rfl, fun _ _ => hflags.2⟩

theorem selInv_select_all_toggle {s : AppState} (h : SelInv s)
    (hscr : s.screen = .RepositoryList) : SelInv (toggle_select_all s) := by
  obtain ⟨hA, hB, hC, hD⟩ := h
  unfold toggle_select_all
  split
  · exact ⟨fun a ha => absurd ha (Finset.not_mem_empty a),
      fun _ => rfl, hC, hD⟩
  · refine ⟨fun a ha => ha, ?_, hC, hD⟩
    intro hne
    exact absurd hscr hne

theorem selInv_step {s s' : AppState} (h : SelInv s) (st : Step s s') :
    SelInv s' := by
  obtain ⟨hA, hB, hC, hD⟩ := h
  cases st with
  | initLoadStart h1 h2 =>
      refine ⟨hA, hB, ?_, ?_⟩ <;> intro _ hscr <;> rw [h1] at hscr <;> cases hscr
  | initLoadNoToken h1 h2 h3 =>
      have hne : s.screen ≠ .RepositoryList := by rw [h1]; decide
      have hsel := hB hne
      refine ⟨?_, fun _ => hsel, ?_, ?_⟩
      · intro a ha
        have ha' : a ∈ s.selection.selected_ids := ha
        rw [hsel] at ha'
        exact absurd ha' (Finset.not_mem_empty a)
      · intro _ hscr; cases hscr
      · intro _ hscr; cases hscr
  | initLoadFinishOk username raw h1 h2 =>
      have hne : s.screen ≠ .RepositoryList := by rw [h1]; decide
      have hsel := hB hne
      refine ⟨?_, ?_, ?_, ?_⟩
      · intro a ha
        have ha' : a ∈ s.selection.selected_ids := ha
        rw [hsel] at ha'
        exact absurd ha' (Finset.not_mem_empty a)
      · intro hne'; exact absurd rfl hne'
      · intro hl _; cases hl
      · intro hl _; cases hl
  | initLoadFail msg h1 h2 =>
      have hne : s.screen ≠ .RepositoryList := by rw [h1]; decide
      have hsel := hB hne
      refine ⟨?_, fun _ => hsel, ?_, ?_⟩
      · intro a ha
        have ha' : a ∈ s.selection.selected_ids := ha
        rw [hsel] at ha'
        exact absurd ha' (Finset.not_mem_empty a)
      · intro _ hscr; cases hscr
      · intro _ hscr; cases hscr
  | submitTokenOk token username h1 =>
      have hne : s.screen ≠ .RepositoryList := by rw [h1]; decide
      have hsel := hB hne
      refine ⟨?_, fun _ => hsel, ?_, ?_⟩
      · intro a ha
        have ha' : a ∈ s.selection.selected_ids := ha
        rw [hsel] at ha'
        exact absurd ha' (Finset.not_mem_empty a)
      · intro _ hscr; cases hscr
      · intro _ hscr; cases hscr
  | rowToggle id h1 h2 h3 =>
      refine ⟨?_, ?_, hC, hD⟩
      · intro a ha
        have ha' : a ∈ (s.selection.toggle id).selected_ids := ha
        rcases mem_toggle ha' with hmem | rfl
        · exact hA hmem
        · exact mem_repoIds.mpr h3
      · intro hne; exact absurd h1 hne
  | selectAllToggle h1 => exact selInv_select_all_toggle ⟨hA, hB, hC, hD⟩ h1
  | sortFieldClick field h1 =>
      have hs : SelInv (sort_click_update s field) := by
        unfold sort_click_update
        split <;> exact ⟨hA, hB, hC, hD⟩
      exact selInv_reload_start hs
  | sortDirClick h1 => exact selInv_reload_start ⟨hA, hB, hC, hD⟩
  | reloadFinishOk raw h1 =>
      have hsel : s.selection.selected_ids = ∅ := by
        by_cases hscr : s.screen = .RepositoryList
        · have hrep := hC h1 hscr
          refine Finset.eq_empty_iff_forall_not_mem.mpr (fun a ha => ?_)
          have := mem_repoIds.mp (hA ha)
          rw [hrep] at this
          simp at this
        · exact hB hscr
      refine ⟨?_, fun _ => hsel, ?_, ?_⟩
      · intro a ha
        have ha' : a ∈ s.selection.selected_ids := ha
        rw [hsel] at ha'
        exact absurd ha' (Finset.not_mem_empty a)
      · intro hl _; cases hl
      · intro hl _; cases hl
  | reloadFinishFail e clearRes h1 =>
      have hs : SelInv { s with loading := false } := by
        refine ⟨hA, hB, ?_, ?_⟩ <;> intro hl <;> simp at hl
      exact selInv_handle_api_error hs clearRes e "Failed to reload"
  | loadMoreStart h1 h2 =>
      unfold load_more_start
      split
      · refine ⟨hA, hB, hC, ?_⟩
        intro hl
        rw [h2] at hl
        cases hl
      · exact ⟨hA, hB, hC, hD⟩
  | loadMoreFinishOk raw h1 =>
      refine ⟨?_, hB, ?_, ?_⟩
      · intro a ha
        have ha' : a ∈ s.selection.selected_ids := ha
        obtain ⟨r, hrmem, hrid⟩ := mem_repoIds.mp (hA ha')
        exact mem_repoIds.mpr ⟨r, List.mem_append_left _ hrmem, hrid⟩
      · intro hl hscr
        rw [hD hl hscr] at h1
        cases h1
      · intro hl hscr
        rw [hD hl hscr] at h1
        cases h1
  | loadMoreFinishFail e clearRes h1 =>
      have hs : SelInv { s with loading_more := false } :=
        ⟨hA, hB, hC, fun _ _ => rfl⟩
      exact selInv_handle_api_error hs clearRes e "Failed to load more"
  | requestUnstarSingle r h1 h2 h3 => exact ⟨hA, hB, hC, hD⟩
  | requestUnstarSelected h1 h2 => exact ⟨hA, hB, hC, hD⟩
  | requestLogout h1 => exact ⟨hA, hB, hC, hD⟩
  | cancelPending h1 => exact ⟨hA, hB, hC, hD⟩
  | confirmUnstar a h1 h2 => exact ⟨hA, hB, hC, hD⟩
  | confirmLogout clearRes h1 =>
      exact selInv_logout { s with pending_action := none } clearRes
  | unstarSingleFinishOk id => exact selInv_remove_repos ⟨hA, hB, hC, hD⟩ [id]
  | unstarSingleFinishFail e clearRes =>
      exact selInv_handle_api_error ⟨hA, hB, hC, hD⟩ clearRes e "Failed to unstar"
  | unstarSelectedFinish results ids clearRes =>
      unfold unstar_selected_finish
      split
      · exact selInv_logout s clearRes
      · exact selInv_remove_repos ⟨hA, hB, hC, hD⟩ _

theorem selInv_from_config (c : AppConfig) : SelInv (AppState.from_config c) := by
  refine ⟨?_, fun _ => rfl, fun _ _ => rfl, ?_⟩
  · intro a ha
    exact absurd ha (Finset.not_mem_empty a)
  · intro hl
    simp [AppState.from_config, AppState.default_state] at hl

theorem selInv_reachable {c : AppConfig} {s : AppState} (h : Reachable c s) :
    SelInv s := by
  induction h with
  | refl => exact selInv_from_config c
  | tail _ hstep ih => exact selInv_step ih hstep

/-- C1: for every reachable application state, the selection contains only
ids of repositories currently in the loaded list; and `remove_repos(ids)`
removes exactly the repositories with a listed id from the list while
evicting exactly those ids from the selection, in the same state
transition. -/
theorem c1_selection_subset_invariant :
    (∀ (c : AppConfig) (s : AppState), Reachable c s →
        s.selection.selected_ids ⊆ repoIds s)
    ∧ (∀ (s : AppState) (ids : List Nat),
        (∀ r : Repository, r ∈ (s.remove_repos ids).repositories ↔
            r ∈ s.repositories ∧ r.id ∉ ids)
        ∧ (∀ a : ℕ, a ∈ (s.remove_repos ids).selection.selected_ids ↔
            a ∈ s.selection.selected_ids ∧ a ∉ ids)) := by
  constructor
  · intro c s h
    exact (selInv_reachable h).1
  · intro s ids
    exact ⟨fun r => mem_remove_repos, fun a => mem_remove_ids⟩

/-- Witness for C1 at concrete inputs: the initial state of a configured
process, and one `remove_repos` call on a two-repository state. -/
theorem c1_selection_subset_invariant_witness :
    ((AppState.from_config ⟨⟨some "tok"⟩⟩).selection.selected_ids ⊆
        repoIds (AppState.from_config ⟨⟨some "tok"⟩⟩))
    ∧ (∀ a : ℕ,
        a ∈ (({ AppState.from_config ⟨⟨some "tok"⟩⟩ with
                repositories :=
                  [⟨1, "a", "o/a", "o", none, none, 0, 0, 0, none, [], 0, none,
                    "", 0⟩,
                   ⟨2, "b", "o/b", "o", none, none, 0, 0, 0, none, [], 0, none,
                    "", 1⟩]
                selection := ⟨{1, 2}⟩ }).remove_repos
              [1]).selection.selected_ids ↔
          a ∈ ({1, 2} : Finset ℕ) ∧ a ∉ [1]) :=
  ⟨c1_selection_subset_invariant.1 ⟨⟨some "tok"⟩⟩ _ Relation.ReflTransGen.refl,
   (c1_selection_subset_invariant.2 _ [1]).2⟩

/-! ## The pagination cursor across steps -/

@[simp] theorem sort_click_update_current_page (s : AppState) (f : SortField) :
    (sort_click_update s f).current_page = s.current_page := by
  unfold sort_click_update; split <;> rfl

@[simp] theorem sort_click_update_loading (s : AppState) (f : SortField) :
    (sort_click_update s f).loading = s.loading := by
  unfold sort_click_update; split <;> rfl

@[simp] theorem sort_click_update_loading_more (s : AppState) (f : SortField) :
    (sort_click_update s f).loading_more = s.loading_more := by
  unfold sort_click_update; split <;> rfl

theorem logout_current_page (s : AppState) (cr : Except String Unit) :
    (s.logout cr).1.current_page = s.current_page := by
  cases cr <;> rfl

theorem handle_api_error_current_page (s : AppState) (cr : Except String Unit)
    (e : ApiError) (ctx : String) :
    (s.handle_api_error cr e ctx).1.current_page = s.current_page := by
  unfold AppState.handle_api_error
  split
  · exact logout_current_page s cr
  · rfl

/-- How one step can move the pagination cursor: unchanged, reset to `1`
(a reload or the initial load), or advanced by exactly one while a
load-more was in flight. -/
theorem step_current_page {s s' : AppState} (st : Step s s') :
    s'.current_page = s.current_page
    ∨ s'.current_page = 1
    ∨ (s'.current_page = s.current_page + 1 ∧ s.loading_more = true) := by
  cases st with
  | initLoadStart h1 h2 => exact Or.inl rfl
  | initLoadNoToken h1 h2 h3 => exact Or.inl rfl
  | initLoadFinishOk username raw h1 h2 => exact Or.inr (Or.inl rfl)
  | initLoadFail msg h1 h2 => exact Or.inl rfl
  | submitTokenOk token username h1 => exact Or.inl rfl
  | rowToggle id h1 h2 h3 => exact Or.inl rfl
  | selectAllToggle h1 =>
      unfold toggle_select_all
      split <;> exact Or.inl rfl
  | sortFieldClick field h1 =>
      unfold reload_start
      rw [sort_click_update_loading, sort_click_update_loading_more]
      split
      · exact Or.inl (sort_click_update_current_page s field)
      · exact Or.inr (Or.inl rfl)
  | sortDirClick h1 =>
      unfold reload_start
      split
      · exact Or.inl rfl
      · exact Or.inr (Or.inl rfl)
  | reloadFinishOk raw h1 => exact Or.inr (Or.inl rfl)
  | reloadFinishFail e clearRes h1 =>
      exact Or.inl (handle_api_error_current_page _ clearRes e _)
  | loadMoreStart h1 h2 =>
      unfold load_more_start
      split <;> exact Or.inl rfl
  | loadMoreFinishOk raw h1 => exact Or.inr (Or.inr ⟨rfl, h1⟩)
  | loadMoreFinishFail e clearRes h1 =>
      exact Or.inl (handle_api_error_current_page _ clearRes e _)
  | requestUnstarSingle r h1 h2 h3 => exact Or.inl rfl
  | requestUnstarSelected h1 h2 => exact Or.inl rfl
  | requestLogout h1 => exact Or.inl rfl
  | cancelPending h1 => exact Or.inl rfl
  | confirmUnstar a h1 h2 => exact Or.inl rfl
  | confirmLogout clearRes h1 => exact Or.inl (logout_current_page _ clearRes)
  | unstarSingleFinishOk id => exact Or.inl rfl
  | unstarSingleFinishFail e clearRes =>
      exact Or.inl (handle_api_error_current_page _ clearRes e _)
  | unstarSelectedFinish results ids clearRes =>
      unfold unstar_selected_finish
      split
      · exact Or.inl (logout_current_page s clearRes)
      · exact Or.inl rfl

/-- The cursor is at least `1` in every reachable state. -/
theorem reachable_current_page_pos {c : AppConfig} {s : AppState}
    (h : Reachable c s) : 1 ≤ s.current_page := by
  induction h with
  | refl => exact Nat.le_refl 1
  | tail _ hstep ih =>
      rcases step_current_page hstep with heq | heq | ⟨heq, _⟩ <;> omega

/-- C7 (amended): across every step from a reachable state the pagination
cursor is unchanged, or reset to `1` by a reload/initial load (never rising
through such a reset), or advanced by exactly one by the success write-back
of a load-more that fetched page `current_page + 1`; `load_more` is a no-op
when `loading_more` is set or `has_more` is false, and a failed load-more
fetch leaves the cursor unchanged. -/
theorem c7_current_page_monotone_amended :
    (∀ (c : AppConfig) (s s' : AppState), Reachable c s → Step s s' →
        s'.current_page = s.current_page
        ∨ (s'.current_page = 1 ∧ s'.current_page ≤ s.current_page)
        ∨ (s'.current_page = s.current_page + 1 ∧ s.loading_more = true))
    ∧ (∀ s : AppState, s.loading_more = true ∨ s.has_more = false →
        load_more_start s = s)
    ∧ (∀ (s : AppState) (next : Nat) (e : ApiError) (cr : Except String Unit),
        (load_more_finish s next (.error e) cr).current_page = s.current_page) := by
  refine ⟨?_, ?_, ?_⟩
  · intro c s s' hr hst
    have hpos := reachable_current_page_pos hr
    rcases step_current_page hst with heq | heq | ⟨heq, hlm⟩
    · exact Or.inl heq
    · exact Or.inr (Or.inl ⟨heq, by omega⟩)
    · exact Or.inr (Or.inr ⟨heq, hlm⟩)
  · intro s hs
    unfold load_more_start
    rcases hs with hs | hs <;> simp [hs]
  · intro s next e cr
    exact handle_api_error_current_page _ cr e _

/-- Witness for C7 (amended) at concrete inputs: one step out of the initial
state of an unconfigured process, and the two no-op/failure conjuncts on a
concrete state. -/
theorem c7_current_page_monotone_amended_witness :
    ((AppState.from_config ⟨⟨none⟩⟩).current_page =
          (AppState.from_config ⟨⟨none⟩⟩).current_page
      ∨ ((AppState.from_config ⟨⟨none⟩⟩).current_page = 1
          ∧ (AppState.from_config ⟨⟨none⟩⟩).current_page ≤
              (AppState.from_config ⟨⟨none⟩⟩).current_page)
      ∨ ((AppState.from_config ⟨⟨none⟩⟩).current_page =
            (AppState.from_config ⟨⟨none⟩⟩).current_page + 1
          ∧ (AppState.from_config ⟨⟨none⟩⟩).loading_more = true))
    ∧ load_more_start { AppState.from_config ⟨⟨none⟩⟩ with loading_more := true } =
        { AppState.from_config ⟨⟨none⟩⟩ with loading_more := true }
    ∧ (load_more_finish (AppState.from_config ⟨⟨none⟩⟩) 2
          (.error (.other "net")) (.ok ())).current_page =
        (AppState.from_config ⟨⟨none⟩⟩).current_page := by
  refine ⟨?_, ?_, ?_⟩
  · have h := c7_current_page_monotone_amended.1 ⟨⟨none⟩⟩
      (AppState.from_config ⟨⟨none⟩⟩)
      { AppState.from_config ⟨⟨none⟩⟩ with
          config := ⟨⟨some "tok"⟩⟩
          github_service := some ()
          username := some "u"
          screen := .Loading }
      Relation.ReflTransGen.refl (Step.submitTokenOk "tok" "u" rfl)
    simp at h
    simp [h]
  · exact c7_current_page_monotone_amended.2.1 _ (Or.inl rfl)
  · exact c7_current_page_monotone_amended.2.2 _ 2 (.other "net") (.ok ())

/-- A concrete raw item as the server would return it. -/
def c7raw : OctoRepo :=
  ⟨1, "r", some "o/r", some "o", none, none, some 0, some 0, some 0, none,
    none, none, none, none⟩

/-- A full first page of 100 raw items. -/
def c7raw1 : List OctoRepo := List.replicate 100 c7raw

/-- A partial second page of 40 raw items. -/
def c7raw2 : List OctoRepo := List.replicate 40 c7raw

def c7cfg : AppConfig := ⟨⟨some "tok"⟩⟩

def c7s0 : AppState := AppState.from_config c7cfg

def c7s1 : AppState := { c7s0 with loading := true }

def c7s2 : AppState :=
  trigger_load_finish c7s1 (.ok ("user",
    (fetch_starred_repos_page 1 100 c7s1.sort_field.api_value
      c7s1.sort_direction.api_value c7raw1).2.1,
    (fetch_starred_repos_page 1 100 c7s1.sort_field.api_value
      c7s1.sort_direction.api_value c7raw1).2.2))

def c7s3 : AppState := load_more_start c7s2

def c7s4 : AppState :=
  load_more_finish c7s3 (c7s3.current_page + 1) (.ok
    ((fetch_starred_repos_page (c7s3.current_page + 1) 100
        c7s3.sort_field.api_value c7s3.sort_direction.api_value c7raw2).2.1,
     (fetch_starred_repos_page (c7s3.current_page + 1) 100
        c7s3.sort_field.api_value c7s3.sort_direction.api_value c7raw2).2.2))
    (.ok ())

def c7s5 : AppState := reload_start (dir_click_update c7s4)

/-- Counterexample to C7 as stated: after a successful load-more the cursor
is `2`; a sort-direction click (a reachable step) then resets it to `1`, so
an operation does decrease `current_page`. -/
theorem c7_counterexample :
    Reachable c7cfg c7s4 ∧ Step c7s4 c7s5 ∧
      c7s5.current_page < c7s4.current_page := by
  refine ⟨?_, ?_, ?_⟩
  · exact Relation.ReflTransGen.tail
      (Relation.ReflTransGen.tail
        (Relation.ReflTransGen.tail
          (Relation.ReflTransGen.tail Relation.ReflTransGen.refl
            (Step.initLoadStart rfl rfl))
          (Step.initLoadFinishOk "user" c7raw1 rfl rfl))
        (Step.loadMoreStart rfl rfl))
      (Step.loadMoreFinishOk c7raw2 (by decide))
  · exact Step.sortDirClick rfl
  · decide

/-- C9: clicking a different sort field selects it and resets the direction
to ascending; clicking the active field (or the direction control) toggles
the direction and keeps the field; the direction toggle is an involution. -/
theorem c9_sort_toggle :
    (∀ d : SortDirection, d.toggle.toggle = d)
    ∧ (∀ (s : AppState) (f : SortField), s.sort_field ≠ f →
        (sort_click_update s f).sort_field = f
        ∧ (sort_click_update s f).sort_direction = .Asc)
    ∧ (∀ (s : AppState) (f : SortField), s.sort_field = f →
        (sort_click_update s f).sort_field = s.sort_field
        ∧ (sort_click_update s f).sort_direction = s.sort_direction.toggle)
    ∧ (∀ s : AppState,
        (dir_click_update s).sort_field = s.sort_field
        ∧ (dir_click_update s).sort_direction = s.sort_direction.toggle) := by
  refine ⟨?_, ?_, ?_, ?_⟩
  · intro d; cases d <;> rfl
  · intro s f hne
    unfold sort_click_update
    rw [if_neg hne]
    exact ⟨rfl, rfl⟩
  · intro s f heq
    unfold sort_click_update
    rw [if_pos heq]
    exact ⟨rfl, rfl⟩
  · intro s
    exact ⟨rfl, rfl⟩

/-- Witness for C9 at concrete inputs (initial state sorts by `Pushed`
ascending). -/
theorem c9_sort_toggle_witness :
    SortDirection.Desc.toggle.toggle = SortDirection.Desc
    ∧ ((sort_click_update (AppState.from_config ⟨⟨none⟩⟩) .Starred).sort_field =
          .Starred
        ∧ (sort_click_update (AppState.from_config ⟨⟨none⟩⟩)
              .Starred).sort_direction = .Asc)
    ∧ ((sort_click_update (AppState.from_config ⟨⟨none⟩⟩) .Pushed).sort_field =
          (AppState.from_config ⟨⟨none⟩⟩).sort_field
        ∧ (sort_click_update (AppState.from_config ⟨⟨none⟩⟩)
              .Pushed).sort_direction =
            (AppState.from_config ⟨⟨none⟩⟩).sort_direction.toggle) :=
  ⟨c9_sort_toggle.1 .Desc,
   c9_sort_toggle.2.1 (AppState.from_config ⟨⟨none⟩⟩) .Starred (by decide),
   c9_sort_toggle.2.2.1 (AppState.from_config ⟨⟨none⟩⟩) .Pushed (by decide)⟩

/-- C4: `handle_api_error` performs a full `logout()` and sets the fixed
message "Token expired. Please login again." when the error is classified
as token expiry — independently of the caller-supplied context — and
otherwise sets the error field to "{context}: {error}" without any
logout. -/
theorem c4_handle_api_error :
    ∀ (s : AppState) (e : ApiError) (c : String) (cr : Except String Unit),
      (is_token_expired_error e = true →
        (s.handle_api_error cr e c).1 =
            { (s.logout cr).1 with
                error := some "Token expired. Please login again." }
        ∧ (s.handle_api_error cr e c).2 = 1
        ∧ ∀ c' : String, s.handle_api_error cr e c = s.handle_api_error cr e c')
      ∧ (is_token_expired_error e = false →
        (s.handle_api_error cr e c).1 =
            { s with error := some (c ++ ": " ++ e.display) }
        ∧ (s.handle_api_error cr e c).2 = 0) := by
  intro s e c cr
  constructor
  · intro he
    refine ⟨?_, ?_, ?_⟩ <;> simp [AppState.handle_api_error, he, tokenExpiredMsg]
  · intro he
    refine ⟨?_, ?_⟩ <;> simp [AppState.handle_api_error, he]

/-- Witness for C4 at concrete inputs: a token-expiry error and an ordinary
error against the configured initial state. -/
theorem c4_handle_api_error_witness :
    ((AppState.from_config ⟨⟨some "tok"⟩⟩).handle_api_error (.ok ())
          .tokenExpired "Failed to unstar").1 =
        { ((AppState.from_config ⟨⟨some "tok"⟩⟩).logout (.ok ())).1 with
            error := some "Token expired. Please login again." }
    ∧ ((AppState.from_config ⟨⟨some "tok"⟩⟩).handle_api_error (.ok ())
          (.other "boom") "Failed to unstar").1 =
        { AppState.from_config ⟨⟨some "tok"⟩⟩ with
            error := some "Failed to unstar: boom" } := by
  have h1 := (c4_handle_api_error (AppState.from_config ⟨⟨some "tok"⟩⟩)
    .tokenExpired "Failed to unstar" (.ok ())).1 rfl
  have h2 := (c4_handle_api_error (AppState.from_config ⟨⟨some "tok"⟩⟩)
    (.other "boom") "Failed to unstar" (.ok ())).2 rfl
  exact ⟨h1.1, by rw [h2.1]; rfl⟩

/-- Counterexample to C5 as stated: when the persisted-credential clear
fails, `logout()` leaves the in-memory stored credential in place (the `?`
operator returns before the token-field reset), so the stored credential is
not cleared. -/
theorem c5_counterexample :
    ((AppState.from_config ⟨⟨some "tok"⟩⟩).logout
        (.error "disk full")).1.config.github.personal_access_token =
      some "tok" := by
  decide

/-- C5 (amended): `logout()` always clears the client handle, username,
repository list and selection and resets the screen to `Setup`, even when
the store clear fails, and it surfaces a store-clear failure by returning
it; the in-memory stored credential, however, is cleared only when the
store clear succeeds and keeps its old value when it fails. -/
theorem c5_logout_amended :
    ∀ (s : AppState) (cr : Except String Unit),
      (s.logout cr).1.github_service = none
      ∧ (s.logout cr).1.username = none
      ∧ (s.logout cr).1.repositories = []
      ∧ (s.logout cr).1.selection.selected_ids = ∅
      ∧ (s.logout cr).1.screen = .Setup
      ∧ (∀ msg : String, cr = .error msg →
          (s.logout cr).2 = .error msg
          ∧ (s.logout cr).1.config.github.personal_access_token =
              s.config.github.personal_access_token)
      ∧ (cr = .ok () →
          (s.logout cr).2 = .ok ()
          ∧ (s.logout cr).1.config.github.personal_access_token = none) := by
  intro s cr
  cases cr with
  | error msg =>
      refine ⟨rfl, rfl, rfl, rfl, rfl, ?_, ?_⟩
      · intro m hm
        cases hm
        exact ⟨rfl, rfl⟩
      · intro hm
        cases hm
  | ok u =>
      refine ⟨rfl, rfl, rfl, rfl, rfl, ?_, ?_⟩
      · intro m hm
        cases hm
      · intro hm
        exact ⟨rfl, rfl⟩

/-- Witness for C5 (amended) at a concrete input: a failing store clear on
the configured initial state. -/
theorem c5_logout_amended_witness :
    ((AppState.from_config ⟨⟨some "tok"⟩⟩).logout
          (.error "disk full")).1.screen = .Setup
    ∧ ((AppState.from_config ⟨⟨some "tok"⟩⟩).logout
          (.error "disk full")).1.repositories = []
    ∧ ((AppState.from_config ⟨⟨some "tok"⟩⟩).logout
          (.error "disk full")).2 = .error "disk full"
    ∧ ((AppState.from_config ⟨⟨some "tok"⟩⟩).logout
          (.error "disk full")).1.config.github.personal_access_token =
        (AppState.from_config ⟨⟨some "tok"⟩⟩).config.github.personal_access_token := by
  have h := c5_logout_amended (AppState.from_config ⟨⟨some "tok"⟩⟩)
    (.error "disk full")
  have he := h.2.2.2.2.2.1 "disk full" rfl
  exact ⟨h.2.2.2.2.1, h.2.2.1, he.1, he.2⟩

/-! ## Stamped page orders -/

theorem stampRepos_length (base : Nat) (items : List OctoRepo) :
    ∀ i, (stampRepos base i items).length = items.length := by
  induction items with
  | nil => intro i; rfl
  | cons r rest ih => intro i; simp [stampRepos, ih]

theorem stampRepos_get? (base : Nat) (items : List OctoRepo) :
    ∀ i k, (stampRepos base i items).get? k =
      (items.get? k).map
        (fun r => Repository.from_octocrab_with_order r (wrap32 (base + (i + k)))) := by
  induction items with
  | nil => intro i k; simp [stampRepos]
  | cons r rest ih =>
      intro i k
      cases k with
      | zero => simp [stampRepos]
      | succ k' =>
          have hstep : (stampRepos base i (r :: rest)).get? (k' + 1) =
              (stampRepos base (i + 1) rest).get? k' := rfl
          rw [hstep, ih (i + 1) k']
          have harith : i + 1 + k' = i + (k' + 1) := by omega
          rw [harith]
          rfl

theorem u32size_pos : 1 ≤ u32size := by decide

/-- The order stamped on the `k`-th item of a fetched page, as a function of
the untruncated page number (u32 wrapping arithmetic). -/
theorem fetch_starred_order_get (page per_page : Nat) (sort direction : String)
    (items : List OctoRepo) (h1 : 1 ≤ page) (h2 : page < u32size) :
    ∀ k, ((fetch_starred_repos_page page per_page sort direction
          items).2.1.get? k).map (fun r => r.starred_order) =
      (items.get? k).map (fun _ => wrap32 ((page - 1) * per_page + k)) := by
  intro k
  have hu := u32size_pos
  show ((stampRepos (wrap32 (wrap32 (page + (u32size - 1)) * per_page)) 0
      items).get? k).map (fun r => r.starred_order) = _
  rw [stampRepos_get?]
  have e1 : wrap32 (page + (u32size - 1)) = page - 1 := by
    unfold wrap32
    have hx : page + (u32size - 1) = (page - 1) + u32size := by omega
    rw [hx, Nat.add_mod_right]
    exact Nat.mod_eq_of_lt (by omega)
  rw [e1]
  cases hget : items.get? k with
  | none => rfl
  | some r =>
      show some (wrap32 (wrap32 ((page - 1) * per_page) + (0 + k))) =
        some (wrap32 ((page - 1) * per_page + k))
      rw [Nat.zero_add]
      unfold wrap32
      rw [Nat.mod_add_mod]

/-- C8 (amended): the `starred_order` stamped on the `i`-th item of a fetch
of page `p` with page size `n` is `(p-1)*n + i` whenever that value fits in
a `u32` (the stamping arithmetic is `u32` arithmetic, so beyond `2^32` it
wraps). -/
theorem c8_starred_order_roundtrip :
    ∀ (page n i : Nat) (sort direction : String) (items : List OctoRepo),
      1 ≤ page → page < u32size → (page - 1) * n + i < u32size →
      ((fetch_starred_repos_page page n sort direction items).2.1.get? i).map
          (fun r => r.starred_order) =
        (items.get? i).map (fun _ => (page - 1) * n + i) := by
  intro page n i sort direction items h1 h2 h3
  rw [fetch_starred_order_get page n sort direction items h1 h2 i]
  cases items.get? i with
  | none => rfl
  | some r =>
      show some (wrap32 ((page - 1) * n + i)) = some ((page - 1) * n + i)
      unfold wrap32
      rw [Nat.mod_eq_of_lt h3]

/-- Witness for C8 (amended) at concrete inputs: page 2, page size 100,
index 5 of a six-item server response is stamped `105`. -/
theorem c8_starred_order_roundtrip_witness :
    ((fetch_starred_repos_page 2 100 "created" "desc"
        (List.replicate 6 ⟨1, "r", none, none, none, none, none, none, none,
          none, none, none, none, none⟩)).2.1.get? 5).map
        (fun r => r.starred_order) = some 105 := by
  have h := c8_starred_order_roundtrip 2 100 5 "created" "desc"
    (List.replicate 6 ⟨1, "r", none, none, none, none, none, none, none,
      none, none, none, none, none⟩) (by decide) (by decide) (by decide)
  rw [h]
  decide

/-- Counterexample to C8 as stated: for page `2^32 - 1` (a valid `u32`) with
page size 100, the stamped order of item 0 is not `(p-1)*100 + 0` — the
`u32` multiplication has wrapped. -/
theorem c8_counterexample :
    ((fetch_starred_repos_page 4294967295 100 "created" "desc"
        [⟨1, "r", none, none, none, none, none, none, none, none, none, none,
          none, none⟩]).2.1.get? 0).map (fun r => r.starred_order) ≠
      some ((4294967295 - 1) * 100 + 0) := by
  decide

/-- C10: the page number sent in the remote request is the `u32` argument
truncated to `u8` — `page % 256` — so it equals the argument exactly for
`page ≤ 255` and differs for every larger page, while `starred_order` is
computed from the untruncated page. -/
theorem c10_page_truncated_to_u8 :
    ∀ (page per_page : Nat) (sort direction : String) (items : List OctoRepo),
      (fetch_starred_repos_page page per_page sort direction items).1.page =
          page % 256
      ∧ (page ≤ 255 →
          (fetch_starred_repos_page page per_page sort direction items).1.page =
            page)
      ∧ (255 < page →
          (fetch_starred_repos_page page per_page sort direction items).1.page ≠
            page)
      ∧ (1 ≤ page → page < u32size → ∀ k,
          ((fetch_starred_repos_page page per_page sort direction
              items).2.1.get? k).map (fun r => r.starred_order) =
            (items.get? k).map (fun _ => wrap32 ((page - 1) * per_page + k))) := by
  intro page per_page sort direction items
  refine ⟨rfl, ?_, ?_, ?_⟩
  · intro h
    exact Nat.mod_eq_of_lt (by omega)
  · intro h heq
    have hpage : page % 256 = page := heq
    have hlt : page % 256 < 256 := Nat.mod_lt page (by omega)
    omega
  · intro h1 h2
    exact fetch_starred_order_get page per_page sort direction items h1 h2

/-- Witness for C10 at a concrete input: requesting page 300 actually
requests page 44, and item 0 is still stamped with the untruncated order
`299 * 100 = 29900`. -/
theorem c10_page_truncated_to_u8_witness :
    (fetch_starred_repos_page 300 100 "created" "desc"
        [⟨1, "r", none, none, none, none, none, none, none, none, none, none,
          none, none⟩]).1.page = 44
    ∧ (fetch_starred_repos_page 300 100 "created" "desc"
        [⟨1, "r", none, none, none, none, none, none, none, none, none, none,
          none, none⟩]).1.page ≠ 300
    ∧ ((fetch_starred_repos_page 300 100 "created" "desc"
        [⟨1, "r", none, none, none, none, none, none, none, none, none, none,
          none, none⟩]).2.1.get? 0).map (fun r => r.starred_order) =
        some 29900 := by
  have h := c10_page_truncated_to_u8 300 100 "created" "desc"
    [⟨1, "r", none, none, none, none, none, none, none, none, none, none,
      none, none⟩]
  refine ⟨by rw [h.1], h.2.2.1 (by decide), ?_⟩
  have h4 := h.2.2.2 (by decide) (by decide) 0
  rw [h4]
  decide

/-! ## Sequentiality and shape of the batch unstar -/

theorem unstar_repos_results_length {σ : Type}
    (call : σ → String → String → σ × Except ApiError Unit) :
    ∀ (pairs : List (String × String)) (st : σ),
      (unstar_repos call st pairs).2.length = pairs.length := by
  intro pairs
  induction pairs with
  | nil => intro st; rfl
  | cons p rest ih =>
      intro st
      obtain ⟨o, n⟩ := p
      show ((unstar_repos call (call st o n).1 rest).2.length + 1) = rest.length + 1
      rw [ih]

theorem unstar_repos_final_state {σ : Type}
    (call : σ → String → String → σ × Except ApiError Unit) :
    ∀ (pairs : List (String × String)) (st : σ),
      (unstar_repos call st pairs).1 = call_state call st pairs := by
  intro pairs
  induction pairs with
  | nil => intro st; rfl
  | cons p rest ih =>
      intro st
      obtain ⟨o, n⟩ := p
      exact ih (call st o n).1

theorem unstar_repos_trace {σ : Type}
    (call : σ → String → String → σ × Except ApiError Unit) :
    ∀ (pairs : List (String × String)) (st : σ) (tr : List (String × String)),
      (unstar_repos (traced_call call) (st, tr) pairs).1.2 = tr ++ pairs := by
  intro pairs
  induction pairs with
  | nil => intro st tr; simp [unstar_repos]
  | cons p rest ih =>
      intro st tr
      obtain ⟨o, n⟩ := p
      show (unstar_repos (traced_call call)
          ((call st o n).1, tr ++ [(o, n)]) rest).1.2 = tr ++ (o, n) :: rest
      rw [ih]
      simp

theorem unstar_repos_get_pair {σ : Type}
    (call : σ → String → String → σ × Except ApiError Unit) :
    ∀ (pairs : List (String × String)) (st : σ) (k : Nat),
      ((unstar_repos call st pairs).2.get? k).map (fun t => (t.1, t.2.1)) =
        pairs.get? k := by
  intro pairs
  induction pairs with
  | nil => intro st k; rfl
  | cons p rest ih =>
      intro st k
      obtain ⟨o, n⟩ := p
      cases k with
      | zero => rfl
      | succ k' => exact ih (call st o n).1 k'

theorem unstar_repos_get_result {σ : Type}
    (call : σ → String → String → σ × Except ApiError Unit) :
    ∀ (pairs : List (String × String)) (st : σ) (k : Nat),
      ((unstar_repos call st pairs).2.get? k).map (fun t => t.2.2) =
        (pairs.get? k).map
          (fun p => (call (call_state call st (pairs.take k)) p.1 p.2).2) := by
  intro pairs
  induction pairs with
  | nil => intro st k; rfl
  | cons p rest ih =>
      intro st k
      obtain ⟨o, n⟩ := p
      cases k with
      | zero => rfl
      | succ k' => exact ih (call st o n).1 k'

/-- C3: `unstar_repos` returns exactly one `(owner, name, result)` triple per
input pair, positionally matching the input; executing it with a traced
oracle shows the remote calls are issued exactly in input order; and the
`k`-th recorded result is the result of the call issued from the oracle
state left behind by the calls for pairs `0..k-1` — i.e. the calls run
sequentially, each starting only after the previous one returned. -/
theorem c3_unstar_repos_sequential :
    ∀ (σ : Type) (call : σ → String → String → σ × Except ApiError Unit)
      (st : σ) (pairs : List (String × String)),
      (unstar_repos call st pairs).2.length = pairs.length
      ∧ (∀ k, ((unstar_repos call st pairs).2.get? k).map
            (fun t => (t.1, t.2.1)) = pairs.get? k)
      ∧ (unstar_repos (traced_call call) (st, []) pairs).1.2 = pairs
      ∧ (∀ k, ((unstar_repos call st pairs).2.get? k).map (fun t => t.2.2) =
          (pairs.get? k).map
            (fun p => (call (call_state call st (pairs.take k)) p.1 p.2).2))
      ∧ (unstar_repos call st pairs).1 = call_state call st pairs := by
  intro σ call st pairs
  exact ⟨unstar_repos_results_length call pairs st,
    fun k => unstar_repos_get_pair call pairs st k,
    by rw [unstar_repos_trace call pairs st []]; rfl,
    fun k => unstar_repos_get_result call pairs st k,
    unstar_repos_final_state call pairs st⟩

/-- Witness for C3 at a concrete oracle (a call counter whose first call
succeeds and whose later calls fail) and a concrete two-pair batch. -/
theorem c3_unstar_repos_sequential_witness :
    (unstar_repos
        (traced_call (fun st _o _n =>
          (st + 1, if st == 0 then Except.ok () else .error .tokenExpired)))
        (0, []) [("o1", "a"), ("o2", "b")]).1.2 = [("o1", "a"), ("o2", "b")]
    ∧ ((unstar_repos
          (fun (st : Nat) _o _n =>
            (st + 1, if st == 0 then Except.ok () else .error .tokenExpired))
          0 [("o1", "a"), ("o2", "b")]).2.get? 1).map (fun t => t.2.2) =
        some (.error .tokenExpired) := by
  have h := c3_unstar_repos_sequential Nat
    (fun st _o _n =>
      (st + 1, if st == 0 then Except.ok () else .error .tokenExpired))
    0 [("o1", "a"), ("o2", "b")]
  refine ⟨?_, ?_⟩
  · have ht := (c3_unstar_repos_sequential Nat
      (fun st _o _n =>
        (st + 1, if st == 0 then Except.ok () else .error .tokenExpired))
      0 [("o1", "a"), ("o2", "b")]).2.2.1
    exact ht
  · rw [h.2.2.2.1 1]
    rfl

/-! ## The `has_more` heuristic and the load-more scenario -/

theorem fetch_has_more_iff (page n : Nat) (sort direction : String)
    (items : List OctoRepo) :
    (fetch_starred_repos_page page n sort direction items).2.2 = true ↔
      items.length = n := by
  show (items.length == n) = true ↔ items.length = n
  exact beq_iff_eq

/-- The complete load-more flow of `RepositoryListView::load_more` on one
state: the synchronous head, then the success write-back for the page-
`current_page + 1` fetch of the given raw server response. -/
def load_more_after (s1 : AppState) (sort direction : String)
    (raw2 : List OctoRepo) : AppState :=
  load_more_finish (load_more_start s1) ((load_more_start s1).current_page + 1)
    (.ok ((fetch_starred_repos_page ((load_more_start s1).current_page + 1) 100
            sort direction raw2).2.1,
          (fetch_starred_repos_page ((load_more_start s1).current_page + 1) 100
            sort direction raw2).2.2))
    (.ok ())

/-- C6: `has_more` is true iff the returned item count equals the requested
page size; and in the concrete scenario — page size 100, a page-1 fetch
returning 100 items, then a load-more whose page-2 fetch returns 40 items —
the first fetch reports `has_more`, the load-more fetches page 2, appends
the page-2 items after the page-1 items (total 140) and clears
`has_more`. -/
theorem c6_has_more_iff_full_page :
    (∀ (page n : Nat) (sort direction : String) (items : List OctoRepo),
        (fetch_starred_repos_page page n sort direction items).2.2 = true ↔
          items.length = n)
    ∧ (∀ (s1 : AppState) (sort direction : String) (raw1 raw2 : List OctoRepo),
        raw1.length = 100 → raw2.length = 40 →
        s1.repositories =
            (fetch_starred_repos_page 1 100 sort direction raw1).2.1 →
        s1.loading_more = false → s1.has_more = true → s1.current_page = 1 →
        (fetch_starred_repos_page 1 100 sort direction raw1).2.2 = true
        ∧ (load_more_after s1 sort direction raw2).repositories =
            (fetch_starred_repos_page 1 100 sort direction raw1).2.1 ++
              (fetch_starred_repos_page 2 100 sort direction raw2).2.1
        ∧ (load_more_after s1 sort direction raw2).repositories.length = 140
        ∧ (load_more_after s1 sort direction raw2).has_more = false
        ∧ (load_more_after s1 sort direction raw2).current_page = 2) := by
  constructor
  · exact fun page n sort direction items =>
      fetch_has_more_iff page n sort direction items
  · intro s1 sort direction raw1 raw2 h1 h2 hrepos hlm hhm hcp
    have hs2 : load_more_start s1 = { s1 with loading_more := true } := by
      unfold load_more_start
      rw [hlm, hhm]
      rfl
    have hcp2 : (load_more_start s1).current_page = 1 := by rw [hs2]; exact hcp
    refine ⟨(fetch_has_more_iff 1 100 sort direction raw1).mpr h1, ?_, ?_, ?_, ?_⟩
    · unfold load_more_after
      rw [hcp2, hs2]
      show s1.repositories ++ _ = _
      rw [hrepos]
    · unfold load_more_after
      rw [hcp2, hs2]
      show (s1.repositories ++
        (fetch_starred_repos_page (1 + 1) 100 sort direction raw2).2.1).length = 140
      rw [List.length_append, hrepos]
      show ((stampRepos _ 0 raw1).length + (stampRepos _ 0 raw2).length) = 140
      rw [stampRepos_length, stampRepos_length, h1, h2]
    · unfold load_more_after
      rw [hcp2]
      show (raw2.length == 100) = _
      rw [h2]
      rfl
    · unfold load_more_after
      rw [hcp2]
      rfl

/-- Witness for C6 at concrete inputs: a 100-item page 1 and a 40-item page
2 built from replicated raw items. -/
theorem c6_has_more_iff_full_page_witness :
    (fetch_starred_repos_page 1 100 "updated" "asc"
        (List.replicate 100 ⟨1, "r", none, none, none, none, none, none, none,
          none, none, none, none, none⟩)).2.2 = true
    ∧ (load_more_after
          { AppState.from_config ⟨⟨some "tok"⟩⟩ with
              repositories :=
                (fetch_starred_repos_page 1 100 "updated" "asc"
                  (List.replicate 100 ⟨1, "r", none, none, none, none, none,
                    none, none, none, none, none, none, none⟩)).2.1 }
          "updated" "asc"
          (List.replicate 40 ⟨1, "r", none, none, none, none, none, none, none,
            none, none, none, none, none⟩)).repositories.length = 140
    ∧ (load_more_after
          { AppState.from_config ⟨⟨some "tok"⟩⟩ with
              repositories :=
                (fetch_starred_repos_page 1 100 "updated" "asc"
                  (List.replicate 100 ⟨1, "r", none, none, none, none, none,
                    none, none, none, none, none, none, none⟩)).2.1 }
          "updated" "asc"
          (List.replicate 40 ⟨1, "r", none, none, none, none, none, none, none,
            none, none, none, none, none⟩)).has_more = false
    ∧ (load_more_after
          { AppState.from_config ⟨⟨some "tok"⟩⟩ with
              repositories :=
                (fetch_starred_repos_page 1 100 "updated" "asc"
                  (List.replicate 100 ⟨1, "r", none, none, none, none, none,
                    none, none, none, none, none, none, none⟩)).2.1 }
          "updated" "asc"
          (List.replicate 40 ⟨1, "r", none, none, none, none, none, none, none,
            none, none, none, none, none⟩)).current_page = 2 := by
  have h := c6_has_more_iff_full_page.2
    { AppState.from_config ⟨⟨some "tok"⟩⟩ with
        repositories :=
          (fetch_starred_repos_page 1 100 "updated" "asc"
            (List.replicate 100 ⟨1, "r", none, none, none, none, none, none,
              none, none, none, none, none, none⟩)).2.1 }
    "updated" "asc"
    (List.replicate 100 ⟨1, "r", none, none, none, none, none, none, none,
      none, none, none, none, none⟩)
    (List.replicate 40 ⟨1, "r", none, none, none, none, none, none, none,
      none, none, none, none, none⟩)
    (by decide) (by decide) rfl rfl rfl rfl
  exact ⟨h.1, h.2.2.1, h.2.2.2.1, h.2.2.2.2⟩

/-! ## The partial-failure semantics of the batch removal -/

theorem mem_success_ids (x : Nat) :
    ∀ (results : List (String × String × Except ApiError Unit)) (ids : List Nat),
      (x ∈ ((results.zip ids).filter (fun p => exceptIsOk p.1.2.2)).map
          (fun p => p.2)) ↔
        ∃ j t, results.get? j = some t ∧ exceptIsOk t.2.2 = true ∧
          ids.get? j = some x := by
  intro results
  induction results with
  | nil => intro ids; simp
  | cons t ts ih =>
      intro ids
      cases ids with
      | nil => simp
      | cons y ys =>
          rw [List.zip_cons_cons, List.filter_cons]
          cases hok : exceptIsOk t.2.2 with
          | true =>
              rw [if_pos rfl, List.map_cons]
              simp only [List.mem_cons]
              constructor
              · rintro (rfl | hx)
                · exact ⟨0, t, rfl, hok, rfl⟩
                · obtain ⟨j, t', h1, h2, h3⟩ := (ih ys).mp hx
                  exact ⟨j + 1, t', h1, h2, h3⟩
              · rintro ⟨j, t', h1, h2, h3⟩
                cases j with
                | zero =>
                    have h3' : some y = some x := h3
                    injection h3' with h3''
                    exact Or.inl h3''.symm
                | succ j' =>
                    exact Or.inr ((ih ys).mpr ⟨j', t', h1, h2, h3⟩)
          | false =>
              rw [if_neg Bool.false_ne_true]
              constructor
              · intro hx
                obtain ⟨j, t', h1, h2, h3⟩ := (ih ys).mp hx
                exact ⟨j + 1, t', h1, h2, h3⟩
              · rintro ⟨j, t', h1, h2, h3⟩
                cases j with
                | zero =>
                    have h1' : some t = some t' := h1
                    injection h1' with h1''
                    rw [← h1''] at h2
                    rw [hok] at h2
                    cases h2
                | succ j' =>
                    exact (ih ys).mpr ⟨j', t', h1, h2, h3⟩

theorem nodup_selected_ids {s : AppState}
    (h : (s.repositories.map (fun r => r.id)).Nodup) :
    s.get_selected_ids.Nodup := by
  have hsub : List.Sublist (selectedRepos s) s.repositories :=
    List.filter_sublist _
  show ((selectedRepos s).map (fun r => r.id)).Nodup
  exact List.Nodup.sublist (hsub.map (fun r => r.id)) h

theorem selected_mem_selection {s : AppState} {r : Repository}
    (h : r ∈ selectedRepos s) : r.id ∈ s.selection.selected_ids := by
  have hp := List.of_mem_filter h
  simpa [RepositorySelection.is_selected] using hp

/-- C2: applying the write-back of a confirmed unstar-selected batch to the
snapshotted selected ids: if any result is classified as token expiry, the
final state is exactly one logout with the fixed expiry message (and no
per-success removal is applied); otherwise no logout happens, every
unselected repository survives, and the `k`-th selected repository is
removed from list and selection exactly when the `k`-th result succeeded,
remaining loaded and selected when it failed. -/
theorem c2_unstar_selected_batch :
    ∀ (s : AppState) (results : List (String × String × Except ApiError Unit))
      (cr : Except String Unit),
      (s.repositories.map (fun r => r.id)).Nodup →
      ((∃ t ∈ results, resultTokenExpired t.2.2 = true) →
        (unstar_selected_finish s results s.get_selected_ids cr).1 =
            { (s.logout cr).1 with error := some tokenExpiredMsg }
        ∧ (unstar_selected_finish s results s.get_selected_ids cr).2 = 1)
      ∧ ((∀ t ∈ results, resultTokenExpired t.2.2 = false) →
        (unstar_selected_finish s results s.get_selected_ids cr).2 = 0
        ∧ (∀ r ∈ s.repositories, r ∉ selectedRepos s →
            r ∈ (unstar_selected_finish s results
                s.get_selected_ids cr).1.repositories)
        ∧ (∀ (k : Nat) (r : Repository)
            (t : String × String × Except ApiError Unit),
            (selectedRepos s).get? k = some r → results.get? k = some t →
            (exceptIsOk t.2.2 = true →
              r ∉ (unstar_selected_finish s results
                  s.get_selected_ids cr).1.repositories
              ∧ r.id ∉ (unstar_selected_finish s results
                  s.get_selected_ids cr).1.selection.selected_ids)
            ∧ (exceptIsOk t.2.2 = false →
              r ∈ (unstar_selected_finish s results
                  s.get_selected_ids cr).1.repositories
              ∧ r.id ∈ (unstar_selected_finish s results
                  s.get_selected_ids cr).1.selection.selected_ids))) := by
  intro s results cr hnd
  constructor
  · rintro ⟨t, ht, hexp⟩
    have hany : results.any (fun t => resultTokenExpired t.2.2) = true :=
      List.any_eq_true.mpr ⟨t, ht, hexp⟩
    unfold unstar_selected_finish
    rw [if_pos hany]
    exact ⟨rfl, rfl⟩
  · intro hall
    have hany : results.any (fun t => resultTokenExpired t.2.2) = false :=
      List.any_eq_false.mpr (fun t ht => by rw [hall t ht]; exact Bool.false_ne_true)
    have hout : unstar_selected_finish s results s.get_selected_ids cr =
        (s.remove_repos (((results.zip s.get_selected_ids).filter
            (fun p => exceptIsOk p.1.2.2)).map (fun p => p.2)), 0) := by
      unfold unstar_selected_finish
      rw [if_neg (by rw [hany]; exact Bool.false_ne_true)]
    rw [hout]
    refine ⟨rfl, ?_, ?_⟩
    · intro r hr hrnot
      refine mem_remove_repos.mpr ⟨hr, fun hmem => ?_⟩
      obtain ⟨j, t', hres, hok, hid⟩ := (mem_success_ids r.id results _).mp hmem
      have hid' : ((selectedRepos s).map (fun r => r.id)).get? j = some r.id := hid
      rw [List.get?_map] at hid'
      cases hget : (selectedRepos s).get? j with
      | none => rw [hget] at hid'; cases hid'
      | some r' =>
          rw [hget] at hid'
          have hidr : r'.id = r.id := by
            have : some r'.id = some r.id := hid'
            injection this
          have hr' : r' ∈ selectedRepos s := List.get?_mem hget
          have hr'' : r' ∈ s.repositories := List.mem_of_mem_filter hr'
          have : r' = r := List.inj_on_of_nodup_map hnd hr'' hr hidr
          exact hrnot (this ▸ hr')
    · intro k r t hsel hres
      have hidk : s.get_selected_ids.get? k = some r.id := by
        show ((selectedRepos s).map (fun r => r.id)).get? k = some r.id
        rw [List.get?_map, hsel]
        rfl
      constructor
      · intro hok
        have hmem : r.id ∈ ((results.zip s.get_selected_ids).filter
            (fun p => exceptIsOk p.1.2.2)).map (fun p => p.2) :=
          (mem_success_ids r.id results _).mpr ⟨k, t, hres, hok, hidk⟩
        constructor
        · intro habs
          exact (mem_remove_repos.mp habs).2 hmem
        · intro habs
          exact (mem_remove_ids.mp habs).2 hmem
      · intro hok
        have hnotin : r.id ∉ ((results.zip s.get_selected_ids).filter
            (fun p => exceptIsOk p.1.2.2)).map (fun p => p.2) := by
          intro hmem
          obtain ⟨j, t', hres', hok', hid'⟩ :=
            (mem_success_ids r.id results _).mp hmem
          have hnids : s.get_selected_ids.Nodup := nodup_selected_ids hnd
          have hjlen : j < s.get_selected_ids.length := by
            rcases List.get?_eq_some.mp hid' with ⟨hlt, -⟩
            exact hlt
          have hjk : j = k := List.get?_inj hjlen hnids (by rw [hid', hidk])
          rw [hjk, hres] at hres'
          have ht' : t = t' := by injection hres'
          rw [← ht'] at hok'
          rw [hok] at hok'
          cases hok'
        have hrrepo : r ∈ s.repositories :=
          List.mem_of_mem_filter (List.get?_mem hsel)
        exact ⟨mem_remove_repos.mpr ⟨hrrepo, hnotin⟩,
          mem_remove_ids.mpr ⟨selected_mem_selection (List.get?_mem hsel), hnotin⟩⟩

def c2r1 : Repository :=
  ⟨1, "a", "o1/a", "o1", none, none, 0, 0, 0, none, [], 0, none, "", 0⟩

def c2r2 : Repository :=
  ⟨2, "b", "o2/b", "o2", none, none, 0, 0, 0, none, [], 0, none, "", 1⟩

/-- A repository-list state with both loaded repositories selected. -/
def c2s : AppState :=
  { AppState.from_config ⟨⟨some "tok"⟩⟩ with
      repositories := [c2r1, c2r2]
      selection := ⟨{1, 2}⟩ }

/-- Batch results: first unstar succeeded, second failed without expiry. -/
def c2resOk : List (String × String × Except ApiError Unit) :=
  [("o1", "a", .ok ()), ("o2", "b", .error (.other "HTTP 500"))]

/-- Batch results: the only unstar hit a 401 token expiry. -/
def c2resExp : List (String × String × Except ApiError Unit) :=
  [("o1", "a", .error .tokenExpired)]

/-- Witness for C2 at concrete inputs: an expired batch forces exactly one
logout with the fixed message; a success+failure batch removes and
deselects exactly the successful repository and keeps the failed one loaded
and selected. -/
theorem c2_unstar_selected_batch_witness :
    ((unstar_selected_finish c2s c2resExp c2s.get_selected_ids (.ok ())).1 =
        { (c2s.logout (.ok ())).1 with error := some tokenExpiredMsg }
      ∧ (unstar_selected_finish c2s c2resExp c2s.get_selected_ids (.ok ())).2 = 1)
    ∧ (unstar_selected_finish c2s c2resOk c2s.get_selected_ids (.ok ())).2 = 0
    ∧ (c2r1 ∉ (unstar_selected_finish c2s c2resOk c2s.get_selected_ids
          (.ok ())).1.repositories
      ∧ (1 : ℕ) ∉ (unstar_selected_finish c2s c2resOk c2s.get_selected_ids
          (.ok ())).1.selection.selected_ids)
    ∧ (c2r2 ∈ (unstar_selected_finish c2s c2resOk c2s.get_selected_ids
          (.ok ())).1.repositories
      ∧ (2 : ℕ) ∈ (unstar_selected_finish c2s c2resOk c2s.get_selected_ids
          (.ok ())).1.selection.selected_ids) := by
  have hnd : (c2s.repositories.map (fun r => r.id)).Nodup := by decide
  have hexp := (c2_unstar_selected_batch c2s c2resExp (.ok ()) hnd).1
    ⟨("o1", "a", .error .tokenExpired), List.mem_cons_self _ _, rfl⟩
  have h2 := (c2_unstar_selected_batch c2s c2resOk (.ok ()) hnd).2 (by
    intro t ht
    rcases List.mem_cons.mp ht with rfl | ht2
    · rfl
    · rcases List.mem_cons.mp ht2 with rfl | h3
      · rfl
      · exact absurd h3 (List.not_mem_nil t))
  refine ⟨hexp, h2.1, ?_, ?_⟩
  · exact (h2.2.2 0 c2r1 ("o1", "a", .ok ()) (by decide) rfl).1 rfl
  · exact (h2.2.2 1 c2r2 ("o2", "b", .error (.other "HTTP 500"))
      (by decide) rfl).2 rfl
